import Mathlib

/-!
# Verification of the MYPatients.ie security-configuration layer

Shallow embedding of `security-config.js` (the `SecurityConfig` class) of the
Demo-mypatients-ie repository, together with proofs about the claims of its
specification.

Modelling conventions:
* JavaScript strings that are treated as byte buffers (`Buffer.from(s)`,
  plaintexts fed through `cipher.update(text, 'utf8', ...)`) are modelled as
  `List Nat` of byte values (`< 256`), i.e. their UTF-8 byte sequences.
* `process.env` is modelled as a record of `Option String` fields, `none`
  standing for an unset variable.
* Exceptions are modelled with `Except JsError`: `Buffer.from(undefined, 'hex')`
  throws a `TypeError`; `crypto.createCipheriv`/`createDecipheriv` with a key
  that is not 32 bytes throw (modelled `invalidKey`); a GCM tag mismatch in
  `decipher.final` throws (modelled `authenticationFailed`);
  `crypto.timingSafeEqual` on buffers of different lengths throws a
  `RangeError`.
* The AES-256-GCM primitive of Node's `crypto` module (external library code,
  not part of this repository) is modelled as an idealized authenticated
  stream cipher: encryption XORs the data with a keystream determined by
  (key, iv), and the authentication tag is a perfectly binding (injective)
  function of (key, iv, ciphertext).  The injective tag idealizes GCM's
  computational unforgeability, which is what lets tamper-detection be stated
  as a theorem.
-/

namespace MyPatients

/-- The environment variables read by `security-config.js`.  `none` models an
unset variable. -/
structure Env where
  CORS_ORIGIN : Option String := none
  RATE_LIMIT_WINDOW_MS : Option String := none
  RATE_LIMIT_MAX_REQUESTS : Option String := none
  SESSION_SECRET : Option String := none
  ENCRYPTION_KEY : Option String := none
  AUDIT_LOG_ENABLED : Option String := none
  NODE_ENV : Option String := none

/-- The runtime failures the modelled code can raise. -/
inductive JsError where
  /-- The `TypeError` thrown by e.g. `Buffer.from(undefined, 'hex')`. -/
  | typeError
  /-- The `RangeError` thrown by `crypto.timingSafeEqual` on buffers of different lengths. -/
  | rangeError
  /-- The error raised by `createCipheriv`/`createDecipheriv` when rejecting a key that is not 32 bytes. -/
  | invalidKey
  /-- GCM authentication-tag mismatch raised by `decipher.final`. -/
  | authenticationFailed
  deriving DecidableEq

deriving instance DecidableEq for Except

/-! ## Hex encoding and decoding (`Buffer.from(s, 'hex')`, `buf.toString('hex')`) -/

/-- Value of one hex digit character, `none` for a non-hex character. -/
def hexDigitVal (c : Char) : Option Nat :=
  if 48 ≤ c.toNat ∧ c.toNat ≤ 57 then some (c.toNat - 48)
  else if 97 ≤ c.toNat ∧ c.toNat ≤ 102 then some (c.toNat - 87)
  else if 65 ≤ c.toNat ∧ c.toNat ≤ 70 then some (c.toNat - 55)
  else none

/-- Model of `Buffer.from(s, 'hex')` on the character list of `s`: decodes pairs of hex
digits, stopping at the first invalid pair or dangling digit (Node decodes the
valid prefix and ignores the rest). -/
def hexDecodeList : List Char → List Nat
  | c1 :: c2 :: rest =>
    match hexDigitVal c1, hexDigitVal c2 with
    | some hi, some lo => (16 * hi + lo) :: hexDecodeList rest
    | _, _ => []
  | _ => []

/-- Model of `Buffer.from(s, 'hex')`. -/
def hexDecode (s : String) : List Nat := hexDecodeList s.data

/-- Lowercase hex digit for a value `< 16` (as produced by `toString('hex')`). -/
def hexDigitChar (n : Nat) : Char :=
  match n with
  | 0 => '0' | 1 => '1' | 2 => '2' | 3 => '3' | 4 => '4'
  | 5 => '5' | 6 => '6' | 7 => '7' | 8 => '8' | 9 => '9'
  | 10 => 'a' | 11 => 'b' | 12 => 'c' | 13 => 'd' | 14 => 'e' | _ => 'f'

/-- Model of `buf.toString('hex')` on a byte list, as a character list. -/
def hexEncodeList : List Nat → List Char
  | [] => []
  | b :: rest => hexDigitChar (b / 16) :: hexDigitChar (b % 16) :: hexEncodeList rest

/-- Model of `buf.toString('hex')`. -/
def hexEncode (bs : List Nat) : String := ⟨hexEncodeList bs⟩

theorem hexDigitVal_lt {c : Char} {n : Nat} (h : hexDigitVal c = some n) : n < 16 := by
  unfold hexDigitVal at h
  split_ifs at h <;> simp_all <;> omega

theorem hexDecodeList_lt : ∀ l, ∀ b ∈ hexDecodeList l, b < 256
  | [] => by simp [hexDecodeList]
  | [c] => by simp [hexDecodeList]
  | c1 :: c2 :: rest => by
    intro b hb
    rw [hexDecodeList] at hb
    rcases h1 : hexDigitVal c1 with _ | v1 <;> rcases h2 : hexDigitVal c2 with _ | v2 <;>
      rw [h1, h2] at hb <;> simp at hb
    rcases hb with h | h
    · have := hexDigitVal_lt h1
      have := hexDigitVal_lt h2
      omega
    · exact hexDecodeList_lt rest b h

theorem hexDecode_lt (s : String) : ∀ b ∈ hexDecode s, b < 256 :=
  hexDecodeList_lt s.data

theorem hexDigitVal_hexDigitChar : ∀ n, n < 16 → hexDigitVal (hexDigitChar n) = some n := by
  decide

/-- Decoding is a left inverse of encoding on genuine byte lists. -/
theorem hexDecodeList_hexEncodeList :
    ∀ bs : List Nat, (∀ b ∈ bs, b < 256) → hexDecodeList (hexEncodeList bs) = bs := by
  intro bs hbs
  induction bs with
  | nil => rfl
  | cons b rest ih =>
    have hb : b < 256 := hbs b (List.mem_cons_self b rest)
    have hdiv : b / 16 < 16 := by omega
    have hmod : b % 16 < 16 := Nat.mod_lt _ (by omega)
    rw [hexEncodeList, hexDecodeList, hexDigitVal_hexDigitChar _ hdiv,
      hexDigitVal_hexDigitChar _ hmod, ih fun x hx => hbs x (List.mem_cons_of_mem b hx)]
    show (16 * (b / 16) + b % 16) :: rest = b :: rest
    rw [Nat.div_add_mod]

theorem hexDecode_hexEncode (bs : List Nat) (h : ∀ b ∈ bs, b < 256) :
    hexDecode (hexEncode bs) = bs :=
  hexDecodeList_hexEncodeList bs h

/-! ## Idealized model of Node's `aes-256-gcm`

The cipher itself lives in Node's `crypto` library, outside this repository.
It is modelled as an authenticated stream cipher: a (key, iv)-determined
keystream XORed onto the data, plus a perfectly binding authentication tag. -/

/-- Deterministic byte-valued digest of a byte list, used to seed the model
keystream. -/
def mixBytes (seed : Nat) (bs : List Nat) : Nat :=
  List.foldl (fun a b => (a * 31 + b + 1) % 256) (seed % 256) bs

/-- Byte `i` of the model keystream for (key, iv). -/
def keystreamByte (key iv : List Nat) (i : Nat) : Nat :=
  (mixBytes 17 key * 251 + mixBytes 89 iv * 241 + i * 7 + 13) % 256

/-- The first `n` bytes of the model keystream for (key, iv). -/
def keystream (key iv : List Nat) (n : Nat) : List Nat :=
  (List.range n).map (keystreamByte key iv)

/-- XOR the data with the (key, iv) keystream.  Applying it twice with the
same key and iv gives the data back, which models that GCM decryption (with
the correct tag) inverts GCM encryption. -/
def gcmXorKeystream (key iv data : List Nat) : List Nat :=
  List.zipWith Nat.xor data (keystream key iv data.length)

/-- The model authentication tag over (key, iv, ciphertext).  It is injective
(perfectly binding), idealizing GCM's computational unforgeability. -/
def gcmTag (key iv ct : List Nat) : List Nat :=
  key.length :: (key ++ (iv.length :: (iv ++ ct)))

theorem keystream_length (key iv : List Nat) (n : Nat) :
    (keystream key iv n).length = n := by
  simp [keystream]

theorem gcmXorKeystream_length (key iv data : List Nat) :
    (gcmXorKeystream key iv data).length = data.length := by
  simp [gcmXorKeystream, keystream_length]

theorem keystreamByte_lt (key iv : List Nat) (i : Nat) : keystreamByte key iv i < 256 :=
  Nat.mod_lt _ (by omega)

theorem zipWith_xor_lt :
    ∀ xs ys : List Nat, (∀ b ∈ xs, b < 256) → (∀ b ∈ ys, b < 256) →
      ∀ b ∈ List.zipWith Nat.xor xs ys, b < 256
  | [], _, _, _ => by simp
  | _ :: _, [], _, _ => by simp
  | x :: xs, y :: ys, hx, hy => by
    intro b hb
    rcases List.mem_cons.1 hb with h | h
    · subst h
      have h8 : (256 : Nat) = 2 ^ 8 := by norm_num
      rw [h8]
      exact Nat.xor_lt_two_pow (h8 ▸ hx x (by simp)) (h8 ▸ hy y (by simp))
    · exact zipWith_xor_lt xs ys (fun b hb => hx b (by simp [hb]))
        (fun b hb => hy b (by simp [hb])) b h

theorem gcmXorKeystream_lt (key iv data : List Nat) (h : ∀ b ∈ data, b < 256) :
    ∀ b ∈ gcmXorKeystream key iv data, b < 256 := by
  refine zipWith_xor_lt data _ h ?_
  intro b hb
  rcases List.mem_map.1 hb with ⟨i, _, rfl⟩
  exact keystreamByte_lt key iv i

theorem zipWith_xor_cancel :
    ∀ xs ys : List Nat, List.zipWith Nat.xor (List.zipWith Nat.xor xs ys) ys = xs.take ys.length
  | [], _ => by simp
  | _ :: _, [] => by simp
  | x :: xs, y :: ys => by
    simp only [List.zipWith, List.take, List.length_cons, zipWith_xor_cancel xs ys]
    have hx : Nat.xor (Nat.xor x y) y = x := by
      show x ^^^ y ^^^ y = x
      rw [Nat.xor_assoc, Nat.xor_self, Nat.xor_zero]
    rw [hx]

/-- Decrypting (XORing again) with the same key and iv restores the data. -/
theorem gcmXorKeystream_involutive (key iv data : List Nat) :
    gcmXorKeystream key iv (gcmXorKeystream key iv data) = data := by
  have h : (List.zipWith Nat.xor data (keystream key iv data.length)).length = data.length := by
    simp [keystream_length]
  rw [gcmXorKeystream, gcmXorKeystream, h, zipWith_xor_cancel, keystream_length,
    List.take_length]

/-- The model tag is perfectly binding. -/
theorem gcmTag_inj {key iv ct key2 iv2 ct2 : List Nat}
    (h : gcmTag key iv ct = gcmTag key2 iv2 ct2) :
    key = key2 ∧ iv = iv2 ∧ ct = ct2 := by
  rw [gcmTag, gcmTag] at h
  injection h with h1 h2
  obtain ⟨hk, htail⟩ := List.append_inj h2 h1
  injection htail with h3 h4
  obtain ⟨hi, hc⟩ := List.append_inj h4 h3
  exact ⟨hk, hi, hc⟩

theorem gcmTag_lt {key iv ct : List Nat}
    (hklen : key.length = 32) (hivlen : iv.length = 16)
    (hk : ∀ b ∈ key, b < 256) (hi : ∀ b ∈ iv, b < 256) (hc : ∀ b ∈ ct, b < 256) :
    ∀ b ∈ gcmTag key iv ct, b < 256 := by
  intro b hb
  rw [gcmTag] at hb
  rcases List.mem_cons.1 hb with h | h
  · omega
  rcases List.mem_append.1 h with h | h
  · exact hk b h
  rcases List.mem_cons.1 h with h | h
  · omega
  rcases List.mem_append.1 h with h | h
  · exact hi b h
  · exact hc b h

/-! ## The `SecurityConfig` crypto methods: `encrypt` and `decrypt`

`SecurityConfig.encrypt(text)` reads `process.env.ENCRYPTION_KEY`, hex-decodes
it (`Buffer.from(key, 'hex')`; a missing variable makes `Buffer.from` throw a
`TypeError`), draws a random 16-byte iv (modelled as the explicit `ivBytes`
argument), creates an `aes-256-gcm` cipher (which throws when the key is not
exactly 32 bytes — it never truncates or pads), and returns the ciphertext,
iv and auth tag as hex strings.  `SecurityConfig.decrypt` does the reverse,
failing inside `decipher.final` when the tag does not verify. -/

/-- The `{ encrypted, iv, authTag }` object returned by `encrypt` (hex
strings). -/
structure EncryptedPayload where
  encrypted : String
  iv : String
  authTag : String
  deriving DecidableEq

/-- Model of `SecurityConfig.encrypt`, with the random iv and the plaintext's UTF-8
bytes made explicit arguments. -/
def encrypt (env : Env) (ivBytes textBytes : List Nat) : Except JsError EncryptedPayload :=
  match env.ENCRYPTION_KEY with
  | none => .error .typeError
  | some ks =>
    if (hexDecode ks).length = 32 then
      .ok { encrypted := hexEncode (gcmXorKeystream (hexDecode ks) ivBytes textBytes)
            iv := hexEncode ivBytes
            authTag := hexEncode (gcmTag (hexDecode ks) ivBytes
              (gcmXorKeystream (hexDecode ks) ivBytes textBytes)) }
    else .error .invalidKey

/-- Model of `SecurityConfig.decrypt` on an `{ encrypted, iv, authTag }` object,
returning the plaintext's UTF-8 bytes. -/
def decrypt (env : Env) (p : EncryptedPayload) : Except JsError (List Nat) :=
  match env.ENCRYPTION_KEY with
  | none => .error .typeError
  | some ks =>
    if (hexDecode ks).length = 32 then
      if gcmTag (hexDecode ks) (hexDecode p.iv) (hexDecode p.encrypted) = hexDecode p.authTag
      then .ok (gcmXorKeystream (hexDecode ks) (hexDecode p.iv) (hexDecode p.encrypted))
      else .error .authenticationFailed
    else .error .invalidKey

/-- The payload `encrypt` produces for a given decoded key, iv and plaintext. -/
def payloadOf (key iv text : List Nat) : EncryptedPayload :=
  { encrypted := hexEncode (gcmXorKeystream key iv text)
    iv := hexEncode iv
    authTag := hexEncode (gcmTag key iv (gcmXorKeystream key iv text)) }

theorem encrypt_eq_payloadOf {env : Env} {ks : String} (h : env.ENCRYPTION_KEY = some ks)
    (hklen : (hexDecode ks).length = 32) (ivBytes textBytes : List Nat) :
    encrypt env ivBytes textBytes = .ok (payloadOf (hexDecode ks) ivBytes textBytes) := by
  rw [encrypt, h]
  simp [hklen, payloadOf]

/-- Replacing position `j` of a list with a value different from the one
stored there yields a different list. -/
theorem set_ne_of_ne_get : ∀ (l : List Nat) (j b : Nat) (hj : j < l.length),
    b ≠ l.get ⟨j, hj⟩ → l.set j b ≠ l
  | [], j, b, hj, _ => by simp at hj
  | a :: rest, 0, b, _, hne => by
    simp only [List.set]
    intro h
    injection h with h1 _
    exact hne h1
  | a :: rest, j+1, b, hj, hne => by
    simp only [List.set]
    intro h
    injection h with _ h2
    exact set_ne_of_ne_get rest j b (by simpa using hj) hne h2

theorem set_mem_lt {l : List Nat} {j x : Nat} (hl : ∀ b ∈ l, b < 256) (hx : x < 256) :
    ∀ b ∈ l.set j x, b < 256 := by
  intro b hb
  rcases List.mem_or_eq_of_mem_set hb with h | h
  · exact hl b h
  · omega

/-- C1: For every plaintext and every key of exactly 32 bytes (every
environment whose `ENCRYPTION_KEY` hex-decodes to 32 bytes), decrypting the
payload returned by `encrypt` with the same key returns the original
plaintext: `decrypt (encrypt plaintext) = plaintext`. -/
theorem C1_encrypt_decrypt_roundtrip (env : Env) (ks : String)
    (h : env.ENCRYPTION_KEY = some ks) (hklen : (hexDecode ks).length = 32)
    (ivBytes textBytes : List Nat) (hivlen : ivBytes.length = 16)
    (hiv : ∀ b ∈ ivBytes, b < 256) (htext : ∀ b ∈ textBytes, b < 256) :
    encrypt env ivBytes textBytes = .ok (payloadOf (hexDecode ks) ivBytes textBytes) ∧
    decrypt env (payloadOf (hexDecode ks) ivBytes textBytes) = .ok textBytes := by
  refine ⟨encrypt_eq_payloadOf h hklen _ _, ?_⟩
  have hkeylt : ∀ b ∈ hexDecode ks, b < 256 := hexDecode_lt ks
  have hct : ∀ b ∈ gcmXorKeystream (hexDecode ks) ivBytes textBytes, b < 256 :=
    gcmXorKeystream_lt _ _ _ htext
  have htag : ∀ b ∈ gcmTag (hexDecode ks) ivBytes
      (gcmXorKeystream (hexDecode ks) ivBytes textBytes), b < 256 :=
    gcmTag_lt hklen hivlen hkeylt hiv hct
  rw [decrypt, h]
  simp only [payloadOf]
  rw [hexDecode_hexEncode _ hct, hexDecode_hexEncode _ hiv, hexDecode_hexEncode _ htag]
  simp [hklen, gcmXorKeystream_involutive]

/-- A 64-hex-character key value, decoding to 32 bytes. -/
def goodKeyHex : String :=
  "000102030405060708090a0b0c0d0e0f101112131415161718191a1b1c1d1e1f"

/-- A well-formed environment: `ENCRYPTION_KEY` hex-decodes to 32 bytes. -/
def envGood : Env := { ENCRYPTION_KEY := some goodKeyHex }

theorem C1_encrypt_decrypt_roundtrip_witness :
    encrypt envGood (List.replicate 16 0) [104, 105]
      = .ok (payloadOf (hexDecode goodKeyHex) (List.replicate 16 0) [104, 105]) ∧
    decrypt envGood (payloadOf (hexDecode goodKeyHex) (List.replicate 16 0) [104, 105])
      = .ok [104, 105] :=
  C1_encrypt_decrypt_roundtrip envGood goodKeyHex rfl (by decide) _ _ (by decide)
    (by decide) (by decide)

/-- C3: In every environment whose `ENCRYPTION_KEY` is set but does not
hex-decode to exactly 32 bytes, both `encrypt` and `decrypt` fail with the
invalid-key error (the cipher constructor rejects the key; the key is never
truncated or padded, no ciphertext or plaintext is ever produced). -/
theorem C3_invalid_key_fails (env : Env) (ks : String)
    (h : env.ENCRYPTION_KEY = some ks) (hklen : (hexDecode ks).length ≠ 32) :
    (∀ ivBytes textBytes, encrypt env ivBytes textBytes = .error .invalidKey) ∧
    (∀ p, decrypt env p = .error .invalidKey) := by
  refine ⟨fun ivBytes textBytes => ?_, fun p => ?_⟩
  · rw [encrypt, h]
    simp [hklen]
  · rw [decrypt, h]
    simp [hklen]

/-- An environment whose `ENCRYPTION_KEY` hex-decodes to 2 bytes. -/
def envShortKey : Env := { ENCRYPTION_KEY := some "abcd" }

theorem C3_invalid_key_fails_witness :
    encrypt envShortKey [] [] = .error .invalidKey ∧
    decrypt envShortKey { encrypted := "", iv := "", authTag := "" } = .error .invalidKey :=
  ⟨(C3_invalid_key_fails envShortKey "abcd" rfl (by decide)).1 [] [],
   (C3_invalid_key_fails envShortKey "abcd" rfl (by decide)).2 _⟩

/-- C4: For every payload produced by `encrypt` under a 32-byte key,
altering any single byte of the ciphertext, of the iv or of the auth tag, or
decrypting with a different 32-byte key, makes `decrypt` fail with the
authentication error — it never returns corrupted plaintext. -/
theorem C4_tamper_detected (env : Env) (ks : String) (key iv text ct tag : List Nat)
    (h : env.ENCRYPTION_KEY = some ks) (hkey : hexDecode ks = key) (hklen : key.length = 32)
    (hivlen : iv.length = 16) (hiv : ∀ b ∈ iv, b < 256) (htext : ∀ b ∈ text, b < 256)
    (hct : ct = gcmXorKeystream key iv text) (htag : tag = gcmTag key iv ct) :
    (∀ j b (hj : j < ct.length), b < 256 → b ≠ ct.get ⟨j, hj⟩ →
      decrypt env ⟨hexEncode (ct.set j b), hexEncode iv, hexEncode tag⟩
        = .error .authenticationFailed) ∧
    (∀ j b (hj : j < iv.length), b < 256 → b ≠ iv.get ⟨j, hj⟩ →
      decrypt env ⟨hexEncode ct, hexEncode (iv.set j b), hexEncode tag⟩
        = .error .authenticationFailed) ∧
    (∀ j b (hj : j < tag.length), b < 256 → b ≠ tag.get ⟨j, hj⟩ →
      decrypt env ⟨hexEncode ct, hexEncode iv, hexEncode (tag.set j b)⟩
        = .error .authenticationFailed) ∧
    (∀ (env2 : Env) (ks2 : String), env2.ENCRYPTION_KEY = some ks2 →
      (hexDecode ks2).length = 32 → hexDecode ks2 ≠ key →
      decrypt env2 ⟨hexEncode ct, hexEncode iv, hexEncode tag⟩
        = .error .authenticationFailed) := by
  have hkeylt : ∀ b ∈ key, b < 256 := hkey ▸ hexDecode_lt ks
  have hctlt : ∀ b ∈ ct, b < 256 := hct ▸ gcmXorKeystream_lt _ _ _ htext
  have htaglt : ∀ b ∈ tag, b < 256 := htag ▸ gcmTag_lt hklen hivlen hkeylt hiv hctlt
  refine ⟨fun j b hj hblt hbne => ?_, fun j b hj hblt hbne => ?_,
    fun j b hj hblt hbne => ?_, fun env2 ks2 h2 hklen2 hkne => ?_⟩
  · have hcond : gcmTag key iv (ct.set j b) ≠ tag := by
      intro heq
      rw [htag] at heq
      obtain ⟨_, _, hc⟩ := gcmTag_inj heq
      exact set_ne_of_ne_get ct j b hj hbne hc
    rw [decrypt, h]
    simp only
    rw [hexDecode_hexEncode _ (set_mem_lt hctlt hblt), hexDecode_hexEncode _ hiv,
      hexDecode_hexEncode _ htaglt, hkey]
    simp [hklen, hcond]
  · have hcond : gcmTag key (iv.set j b) ct ≠ tag := by
      intro heq
      rw [htag] at heq
      obtain ⟨_, hi, _⟩ := gcmTag_inj heq
      exact set_ne_of_ne_get iv j b hj hbne hi
    rw [decrypt, h]
    simp only
    rw [hexDecode_hexEncode _ hctlt, hexDecode_hexEncode _ (set_mem_lt hiv hblt),
      hexDecode_hexEncode _ htaglt, hkey]
    simp [hklen, hcond]
  · have hcond : gcmTag key iv ct ≠ tag.set j b := by
      intro heq
      rw [← htag] at heq
      exact set_ne_of_ne_get tag j b hj hbne heq.symm
    rw [decrypt, h]
    simp only
    rw [hexDecode_hexEncode _ hctlt, hexDecode_hexEncode _ hiv,
      hexDecode_hexEncode _ (set_mem_lt htaglt hblt), hkey]
    simp [hklen, hcond]
  · have hcond : gcmTag (hexDecode ks2) iv ct ≠ tag := by
      intro heq
      rw [htag] at heq
      obtain ⟨hkk, _, _⟩ := gcmTag_inj heq
      exact hkne hkk
    rw [decrypt, h2]
    simp only
    rw [hexDecode_hexEncode _ hctlt, hexDecode_hexEncode _ hiv,
      hexDecode_hexEncode _ htaglt]
    simp [hklen2, hcond]

theorem C4_tamper_detected_witness :
    decrypt envGood
      ⟨hexEncode (gcmXorKeystream (hexDecode goodKeyHex) (List.replicate 16 0) [104, 105]),
       hexEncode (List.replicate 16 0),
       hexEncode ((gcmTag (hexDecode goodKeyHex) (List.replicate 16 0)
         (gcmXorKeystream (hexDecode goodKeyHex) (List.replicate 16 0) [104, 105])).set 0 33)⟩
      = .error .authenticationFailed :=
  (C4_tamper_detected envGood goodKeyHex (hexDecode goodKeyHex) (List.replicate 16 0)
    [104, 105] _ _ rfl rfl (by decide) (by decide) (by decide) (by decide) rfl rfl).2.2.1
    0 33 (by decide) (by decide) (by decide)

/-! ## CSRF token validation (`generateCsrfToken` / `validateCsrfToken`) -/

/-- JavaScript truthiness test `!x` for an optional string (modelled as UTF-8
bytes): `undefined` (`none`) and the empty string are falsy. -/
def jsFalsy : Option (List Nat) → Bool
  | none => true
  | some [] => true
  | some (_ :: _) => false

/-- Model of `crypto.timingSafeEqual(Buffer.from(a), Buffer.from(b))`: throws a
`RangeError` when the buffers have different byte lengths, otherwise returns
whether they are equal (the comparison work is constant-time in the byte
length; timing behaviour itself is outside the model). -/
def timingSafeEqual (a b : List Nat) : Except JsError Bool :=
  if a.length = b.length then .ok (decide (a = b)) else .error .rangeError

/-- Model of `SecurityConfig.validateCsrfToken(token, sessionToken)`.  The arguments
are optional byte strings, `none` modelling `undefined`. -/
def validateCsrfToken (token sessionToken : Option (List Nat)) : Except JsError Bool :=
  if jsFalsy token || jsFalsy sessionToken then .ok false
  else timingSafeEqual (token.getD []) (sessionToken.getD [])

/-- C2 counterexample: On tokens `"a"` and `"ab"` (UTF-8 `[97]` and
`[97, 98]`), which differ and have different lengths, `validateCsrfToken`
throws a `RangeError` (from `crypto.timingSafeEqual`) instead of returning
`false`, refuting the claim that unequal tokens of different lengths yield
`false` without throwing. -/
theorem C2_claim_counterexample :
    validateCsrfToken (some [97]) (some [97, 98]) = .error .rangeError ∧
    validateCsrfToken (some [97]) (some [97, 98]) ≠ .ok false := by
  decide

/-- C2 amended: For nonempty tokens: `validateCsrfToken(a, a)` returns
`true`; when `a ≠ b` but the byte lengths agree it returns `false`; when the
byte lengths differ it throws a `RangeError` rather than returning `false`.
(The all-empty case returns `false`; see the C10 theorem.) -/
theorem C2_validateCsrfToken_amended :
    (∀ a : List Nat, a ≠ [] → validateCsrfToken (some a) (some a) = .ok true) ∧
    (∀ a b : List Nat, a ≠ [] → b ≠ [] → a.length = b.length → a ≠ b →
      validateCsrfToken (some a) (some b) = .ok false) ∧
    (∀ a b : List Nat, a ≠ [] → b ≠ [] → a.length ≠ b.length →
      validateCsrfToken (some a) (some b) = .error .rangeError) := by
  refine ⟨fun a ha => ?_, fun a b ha hb hlen hne => ?_, fun a b ha hb hlen => ?_⟩
  · rcases a with _ | ⟨x, xs⟩
    · exact absurd rfl ha
    · simp [validateCsrfToken, jsFalsy, timingSafeEqual]
  · rcases a with _ | ⟨x, xs⟩
    · exact absurd rfl ha
    rcases b with _ | ⟨y, ys⟩
    · exact absurd rfl hb
    simp [validateCsrfToken, jsFalsy, timingSafeEqual, hlen, hne]
  · rcases a with _ | ⟨x, xs⟩
    · exact absurd rfl ha
    rcases b with _ | ⟨y, ys⟩
    · exact absurd rfl hb
    have h2 : xs.length ≠ ys.length := fun h => hlen (by simp [h])
    simp [validateCsrfToken, jsFalsy, timingSafeEqual, h2]

theorem C2_validateCsrfToken_amended_witness :
    validateCsrfToken (some [1]) (some [1]) = .ok true ∧
    validateCsrfToken (some [1]) (some [2]) = .ok false ∧
    validateCsrfToken (some [1]) (some [1, 2]) = .error .rangeError :=
  ⟨C2_validateCsrfToken_amended.1 [1] (by decide),
   C2_validateCsrfToken_amended.2.1 [1] [2] (by decide) (by decide) (by decide) (by decide),
   C2_validateCsrfToken_amended.2.2 [1] [1, 2] (by decide) (by decide) (by decide)⟩

/-- C10: `validateCsrfToken` returns `false` whenever either argument is
absent (`undefined`) or the empty string — the guard `!token || !sessionToken`
short-circuits before any comparison — and in particular two equal empty
tokens yield `false`. -/
theorem C10_falsy_guard :
    (∀ t s : Option (List Nat),
      t = none ∨ t = some [] ∨ s = none ∨ s = some [] →
      validateCsrfToken t s = .ok false) ∧
    validateCsrfToken (some []) (some []) = .ok false := by
  constructor
  · rintro t s (rfl | rfl | rfl | rfl) <;> simp [validateCsrfToken, jsFalsy]
  · rfl

theorem C10_falsy_guard_witness :
    validateCsrfToken none (some [5]) = .ok false :=
  C10_falsy_guard.1 none (some [5]) (Or.inl rfl)

/-! ## Session configuration and module initialization -/

/-- The `cookie` object inside `sessionConfig`. -/
structure CookieCfg where
  httpOnly : Bool
  secure : Bool
  sameSite : String
  maxAge : Nat
  deriving DecidableEq

/-- The object returned by `SecurityConfig.sessionConfig()`. -/
structure SessionCfg where
  secret : Option String
  resave : Bool
  saveUninitialized : Bool
  cookie : CookieCfg
  name : String
  deriving DecidableEq

/-- Model of `SecurityConfig.sessionConfig()`: reads `SESSION_SECRET` (possibly
`undefined`) and `NODE_ENV` and returns the session options object.  It does
not validate that the secret is present. -/
def sessionConfig (env : Env) : SessionCfg :=
  { secret := env.SESSION_SECRET
    resave := false
    saveUninitialized := false
    cookie := { httpOnly := true
                secure := decide (env.NODE_ENV = some "production")
                sameSite := "strict"
                maxAge := 24 * 60 * 60 * 1000 }
    name := "sessionId" }

/-- The module top level of `security-config.js`: only the `require` calls
and the class declaration run at load time.  No environment variable is read
and no validation is performed, so loading the module never fails, whatever
the environment. -/
def moduleInit (_env : Env) : Except JsError Unit := .ok ()

/-- An environment with nothing configured. -/
def envEmpty : Env := {}

/-- C5 counterexample: With `ENCRYPTION_KEY` and `SESSION_SECRET` both
missing, process start (module initialization) succeeds — nothing fails fast —
while the first call to `encrypt` throws a `TypeError` and `sessionConfig`
silently returns a configuration with no secret.  This refutes the claim that
erroneous configuration makes the program fail at process start before the
error can surface at first use. -/
theorem C5_claim_counterexample :
    moduleInit envEmpty = .ok () ∧
    encrypt envEmpty [] [] = .error .typeError ∧
    (sessionConfig envEmpty).secret = none :=
  ⟨rfl, rfl, rfl⟩

/-- C5 amended: The module performs no configuration validation at
process start: initialization always succeeds; a missing `ENCRYPTION_KEY`
surfaces only when `encrypt` or `decrypt` is first called (as a `TypeError`
from `Buffer.from(undefined, 'hex')`), and `sessionConfig` passes a missing
`SESSION_SECRET` through instead of failing. -/
theorem C5_no_startup_validation (env : Env) :
    moduleInit env = .ok () ∧
    (env.ENCRYPTION_KEY = none →
      (∀ ivBytes textBytes, encrypt env ivBytes textBytes = .error .typeError) ∧
      (∀ p, decrypt env p = .error .typeError)) ∧
    (sessionConfig env).secret = env.SESSION_SECRET := by
  refine ⟨rfl, fun hk => ⟨fun ivBytes textBytes => ?_, fun p => ?_⟩, rfl⟩
  · rw [encrypt, hk]
  · rw [decrypt, hk]

theorem C5_no_startup_validation_witness :
    moduleInit envEmpty = .ok () ∧
    encrypt envEmpty [1] [2] = .error .typeError ∧
    decrypt envEmpty ⟨"", "", ""⟩ = .error .typeError ∧
    (sessionConfig envEmpty).secret = envEmpty.SESSION_SECRET :=
  ⟨(C5_no_startup_validation envEmpty).1,
   ((C5_no_startup_validation envEmpty).2.1 rfl).1 [1] [2],
   ((C5_no_startup_validation envEmpty).2.1 rfl).2 ⟨"", "", ""⟩,
   (C5_no_startup_validation envEmpty).2.2⟩

/-! ## Rate limiting (`rateLimiter` / `authRateLimiter`) -/

/-- The leading decimal digits of a character list. -/
def leadingDigits (cs : List Char) : List Char :=
  cs.takeWhile fun c => decide (48 ≤ c.toNat ∧ c.toNat ≤ 57)

/-- Numeric value of a digit list. -/
def natFromDigits (ds : List Char) : Nat :=
  ds.foldl (fun a c => a * 10 + (c.toNat - 48)) 0

/-- JavaScript `parseInt` on a string, `none` modelling `NaN`.  The decimal
case is modelled: an optional leading minus sign followed by the leading run
of digits.  (Leading-whitespace skipping and radix handling are not used by
the configuration values and are not modelled.) -/
def parseIntJs (s : String) : Option Int :=
  match s.data with
  | '-' :: rest =>
    if leadingDigits rest = [] then none
    else some (-(natFromDigits (leadingDigits rest) : Int))
  | cs =>
    if leadingDigits cs = [] then none
    else some ((natFromDigits (leadingDigits cs) : Int))

/-- Model of `parseInt(process.env.X)`: `parseInt(undefined)` is `NaN`. -/
def parseIntEnv (x : Option String) : Option Int :=
  match x with
  | none => none
  | some s => parseIntJs s

/-- JavaScript `x || y` for a parsed number `x`: `NaN` and `0` are falsy, so they fall
through to the default `y`. -/
def jsOrNum (x : Option Int) (y : Int) : Int :=
  match x with
  | none => y
  | some v => if v = 0 then y else v

/-- The express-rate-limit options set by this module. -/
structure RateLimitCfg where
  windowMs : Int
  max : Int
  skipSuccessfulRequests : Bool
  deriving DecidableEq

/-- Model of `SecurityConfig.rateLimiter()`: window and ceiling from the environment
with defaults 15 minutes / 100 requests; express-rate-limit's default
`skipSuccessfulRequests` is `false`. -/
def rateLimiter (env : Env) : RateLimitCfg :=
  { windowMs := jsOrNum (parseIntEnv env.RATE_LIMIT_WINDOW_MS) (15 * 60 * 1000)
    max := jsOrNum (parseIntEnv env.RATE_LIMIT_MAX_REQUESTS) 100
    skipSuccessfulRequests := false }

/-- Model of `SecurityConfig.authRateLimiter()`: a hard-coded 15-minute window, at most
5 attempts, successful requests not counted.  It does not read
`RATE_LIMIT_WINDOW_MS`. -/
def authRateLimiter (_env : Env) : RateLimitCfg :=
  { windowMs := 15 * 60 * 1000
    max := 5
    skipSuccessfulRequests := true }

/-- Counter state of one express-rate-limit key inside a single window. -/
structure LimiterState where
  hits : Nat
  deriving DecidableEq

/-- One request against express-rate-limit, within a single window: the
counter is incremented and the request rejected once the count exceeds
`max`; if the request was allowed, reached the handler and succeeded,
`skipSuccessfulRequests` undoes the increment when the response completes. -/
def limiterStep (cfg : RateLimitCfg) (st : LimiterState) (succeeds : Bool) :
    Bool × LimiterState :=
  let hits := st.hits + 1
  if (hits : Int) ≤ cfg.max then
    (true, ⟨if succeeds && cfg.skipSuccessfulRequests then hits - 1 else hits⟩)
  else (false, ⟨hits⟩)

/-- Feed a sequence of attempts (`true` = the attempt would succeed if it
reached the handler) to the limiter; returns which attempts were allowed. -/
def limiterRun (cfg : RateLimitCfg) : LimiterState → List Bool → List Bool
  | _, [] => []
  | st, a :: rest =>
    (limiterStep cfg st a).1 :: limiterRun cfg (limiterStep cfg st a).2 rest

/-- An environment configuring a 60-second general rate-limit window. -/
def envShortWindow : Env := { RATE_LIMIT_WINDOW_MS := some "60000" }

/-- C6 counterexample: With `RATE_LIMIT_WINDOW_MS=60000` the general
limiter's window is 60000 ms while the auth limiter's window stays hard-coded
at 900000 ms, refuting the claim that in every configuration the auth limiter
uses a window equal to the general limiter's window. -/
theorem C6_claim_counterexample :
    (rateLimiter envShortWindow).windowMs = 60000 ∧
    (authRateLimiter envShortWindow).windowMs = 900000 ∧
    (rateLimiter envShortWindow).windowMs ≠ (authRateLimiter envShortWindow).windowMs := by
  decide

/-- C6 amended: The auth rate limiter uses a fixed 900000 ms window —
equal to the general limiter's default but not to its configured window —
permits at most 5 attempts per identity per window, and excludes successful
attempts from the count: within one window, with `k ≤ 4` failures, one
interleaved success and the remaining `5 - k` failures all allowed, the next
failed attempt (the 6th failure) is rejected, and six straight failures see
the 6th rejected. -/
theorem C6_auth_limiter (env : Env) :
    authRateLimiter env = ⟨900000, 5, true⟩ ∧
    rateLimiter envEmpty = ⟨900000, 100, false⟩ ∧
    limiterRun (authRateLimiter env) ⟨0⟩ (List.replicate 6 false)
      = List.replicate 5 true ++ [false] ∧
    (∀ k, k ≤ 4 →
      limiterRun (authRateLimiter env) ⟨0⟩
        (List.replicate k false ++ [true] ++ List.replicate (5 - k) false ++ [false])
        = List.replicate 6 true ++ [false]) := by
  refine ⟨rfl, rfl, rfl, fun k hk => ?_⟩
  interval_cases k <;> rfl

theorem C6_auth_limiter_witness :
    limiterRun (authRateLimiter envEmpty) ⟨0⟩
      (List.replicate 2 false ++ [true] ++ List.replicate 3 false ++ [false])
      = List.replicate 6 true ++ [false] :=
  (C6_auth_limiter envEmpty).2.2.2 2 (by decide)

/-! ## Audit logging (`auditLogger`) -/

/-- The parts of an express request object read by the audit middleware. -/
structure Request where
  userId : Option String
  userRole : Option String
  method : String
  originalUrl : String
  ip : Option String
  remoteAddress : String
  userAgent : Option String
  deriving DecidableEq

/-- The `logEntry` object the audit middleware builds. -/
structure AuditEntry where
  timestamp : String
  userId : String
  userRole : String
  action : String
  resource : String
  ip : String
  userAgent : Option String
  status : Nat
  deriving DecidableEq

/-- The `logEntry` built by `auditLogger` from the current request and the
response's status code at the moment the middleware runs. -/
def auditEntryOf (now : String) (req : Request) (statusNow : Nat) : AuditEntry :=
  { timestamp := now
    userId := req.userId.getD "anonymous"
    userRole := req.userRole.getD "unknown"
    action := req.method
    resource := req.originalUrl
    ip := req.ip.getD req.remoteAddress
    userAgent := req.userAgent
    status := statusNow }

/-- One invocation of the middleware returned by
`SecurityConfig.auditLogger()`: it synchronously builds the entry from
`res.statusCode` as it is when the middleware runs, emits it when
`AUDIT_LOG_ENABLED === 'true'`, and calls `next()`.  It is a total function
(never throws) and never waits on the response. -/
def auditLogger (env : Env) (now : String) (req : Request) (statusNow : Nat) :
    List AuditEntry × Bool :=
  (if env.AUDIT_LOG_ENABLED = some "true" then [auditEntryOf now req statusNow] else [],
   true)

/-- The value express gives `res.statusCode` before any handler has run. -/
def expressInitialStatus : Nat := 200

/-- The audit middleware composed with a downstream route handler, as wired
in the repository's server setup (`app.use(SecurityConfig.auditLogger())`
before the routes): the middleware observes the pre-handler status, then
`next()` lets the handler produce the final status. -/
def auditThenHandle (env : Env) (now : String) (req : Request) (finalStatus : Nat) :
    List AuditEntry × Nat :=
  ((auditLogger env now req expressInitialStatus).1,
   if (auditLogger env now req expressInitialStatus).2 then finalStatus
   else expressInitialStatus)

/-- An environment with audit logging enabled. -/
def envAudit : Env := { AUDIT_LOG_ENABLED := some "true" }

/-- A sample anonymous request. -/
def reqDemo : Request :=
  { userId := none
    userRole := none
    method := "GET"
    originalUrl := "/api/patients/1"
    ip := some "10.0.0.1"
    remoteAddress := "10.0.0.1"
    userAgent := some "curl" }

/-- C7, counterexample: with audit enabled, a request whose handler produces
status 404 is audited with status 200 — the pre-handler `res.statusCode` —
because the middleware logs before calling `next()`, so the recorded status
does not equal the final response status. -/
theorem C7_claim_counterexample :
    (auditThenHandle envAudit "2026-01-01T00:00:00Z" reqDemo 404).2 = 404 ∧
    (auditThenHandle envAudit "2026-01-01T00:00:00Z" reqDemo 404).1.map AuditEntry.status
      = [200] ∧
    (200 : Nat) ≠ 404 := by
  decide

/-- C7 (amended): with audit enabled the middleware records exactly one
entry, built from timestamp, identity-or-anonymous, role-or-unknown, method,
path, client ip and user agent — but its status field is the response status
at the moment the middleware is invoked (express's initial 200, since it runs
before the handlers), not the final status; the middleware always calls
`next()` (it neither throws nor blocks the response, being a total function
that immediately passes control on). -/
theorem C7_audit_status_at_invocation (env : Env) (now : String) (req : Request)
    (statusNow finalStatus : Nat) (h : env.AUDIT_LOG_ENABLED = some "true") :
    auditLogger env now req statusNow
      = ([⟨now, req.userId.getD "anonymous", req.userRole.getD "unknown", req.method,
           req.originalUrl, req.ip.getD req.remoteAddress, req.userAgent, statusNow⟩],
         true) ∧
    (auditThenHandle env now req finalStatus).1.map AuditEntry.status
      = [expressInitialStatus] ∧
    (auditThenHandle env now req finalStatus).2 = finalStatus := by
  refine ⟨?_, ?_, ?_⟩
  · simp [auditLogger, auditEntryOf, h]
  · simp [auditThenHandle, auditLogger, auditEntryOf, h]
  · simp [auditThenHandle, auditLogger, h]

theorem C7_audit_status_at_invocation_witness :
    (auditThenHandle envAudit "t" reqDemo 404).1.map AuditEntry.status
      = [expressInitialStatus] ∧
    (auditThenHandle envAudit "t" reqDemo 404).2 = 404 :=
  ⟨(C7_audit_status_at_invocation envAudit "t" reqDemo 0 404 rfl).2.1,
   (C7_audit_status_at_invocation envAudit "t" reqDemo 0 404 rfl).2.2⟩

/-! ## Filename sanitization (`sanitizeFilename`) -/

/-- Membership in the regex class `[a-zA-Z0-9.-]` (the characters
`sanitizeFilename` keeps). -/
def isFilenameSafeChar (c : Char) : Bool :=
  decide ((97 ≤ c.toNat ∧ c.toNat ≤ 122) ∨ (65 ≤ c.toNat ∧ c.toNat ≤ 90) ∨
    (48 ≤ c.toNat ∧ c.toNat ≤ 57) ∨ c.toNat = 46 ∨ c.toNat = 45)

/-- The per-character action of `.replace(/[^a-zA-Z0-9.-]/g, '_')`. -/
def replaceUnsafeChar (c : Char) : Char :=
  if isFilenameSafeChar c then c else '_'

/-- The action of `.replace(/\.{2,}/g, '.')`: every maximal run of two or
more periods becomes a single period.  The boolean argument records whether
the previously emitted character of the current run was a period. -/
def collapseDotsAux : Bool → List Char → List Char
  | _, [] => []
  | prevDot, c :: rest =>
    if c = '.' then
      if prevDot then collapseDotsAux true rest
      else '.' :: collapseDotsAux true rest
    else c :: collapseDotsAux false rest

/-- Model of `SecurityConfig.sanitizeFilename`: replace characters outside
`[a-zA-Z0-9.-]` with `_`, collapse runs of two or more periods, truncate to
255 characters (`.substring(0, 255)`). -/
def sanitizeFilename (s : String) : String :=
  ⟨(collapseDotsAux false (s.data.map replaceUnsafeChar)).take 255⟩

/-- Whether a character list contains two adjacent periods (equivalently, a
`".."` substring). -/
def hasDotDot : List Char → Bool
  | [] => false
  | [_] => false
  | a :: b :: rest => (decide (a = '.') && decide (b = '.')) || hasDotDot (b :: rest)

theorem head_collapseDotsAux_true : ∀ l : List Char,
    (collapseDotsAux true l).head? ≠ some '.'
  | [] => by simp [collapseDotsAux]
  | c :: rest => by
    by_cases hc : c = '.'
    · subst hc
      simpa [collapseDotsAux] using head_collapseDotsAux_true rest
    · simp [collapseDotsAux, hc]

theorem hasDotDot_collapseDotsAux : ∀ (b : Bool) (l : List Char),
    hasDotDot (collapseDotsAux b l) = false
  | _, [] => rfl
  | b, c :: rest => by
    by_cases hc : c = '.'
    · subst hc
      cases b with
      | true => simpa [collapseDotsAux] using hasDotDot_collapseDotsAux true rest
      | false =>
        have hIH := hasDotDot_collapseDotsAux true rest
        have hhd := head_collapseDotsAux_true rest
        simp only [collapseDotsAux, if_pos, if_neg, Bool.false_eq_true, not_false_iff,
          reduceIte]
        rcases hX : collapseDotsAux true rest with _ | ⟨d, tail⟩
        · simp [hasDotDot]
        · rw [hX] at hIH hhd
          have hd : d ≠ '.' := by simpa using hhd
          simp [hasDotDot, hd, hIH]
    · have hIH := hasDotDot_collapseDotsAux false rest
      simp only [collapseDotsAux, hc, if_neg, reduceIte]
      rcases hX : collapseDotsAux false rest with _ | ⟨d, tail⟩
      · simp [hasDotDot]
      · rw [hX] at hIH
        simp [hasDotDot, hc, hIH]

theorem hasDotDot_take : ∀ (l : List Char) (n : Nat),
    hasDotDot l = false → hasDotDot (l.take n) = false
  | [], n, _ => by simp [hasDotDot, List.take_nil]
  | [a], n, _ => by
    cases n with
    | zero => rfl
    | succ m => cases m <;> rfl
  | a :: b :: rest, n, h => by
    cases n with
    | zero => rfl
    | succ m =>
      cases m with
      | zero => rfl
      | succ m2 =>
        simp only [List.take, hasDotDot] at h ⊢
        rw [Bool.or_eq_false_iff] at h ⊢
        exact ⟨h.1, hasDotDot_take (b :: rest) (m2 + 1) h.2⟩

theorem mem_collapseDotsAux : ∀ (b : Bool) (l : List Char) (c : Char),
    c ∈ collapseDotsAux b l → c ∈ l
  | _, [], c => by simp [collapseDotsAux]
  | b, a :: rest, c => by
    by_cases ha : a = '.'
    · subst ha
      cases b with
      | true =>
        intro h
        exact List.mem_cons_of_mem _
          (mem_collapseDotsAux true rest c (by simpa [collapseDotsAux] using h))
      | false =>
        intro h
        simp only [collapseDotsAux, reduceIte] at h
        rcases List.mem_cons.1 h with h | h
        · simp [h]
        · exact List.mem_cons_of_mem _ (mem_collapseDotsAux true rest c h)
    · intro h
      simp only [collapseDotsAux, ha, reduceIte] at h
      rcases List.mem_cons.1 h with h | h
      · simp [h]
      · exact List.mem_cons_of_mem _ (mem_collapseDotsAux false rest c h)

/-- C8: `sanitizeFilename` keeps characters of `[a-zA-Z0-9.-]` and replaces
every other character with an underscore, its output never contains two
adjacent periods (runs of periods are collapsed) and never exceeds 255
characters; `"../../etc/passwd"` sanitizes to `"._._etc_passwd"`, which has
no `".."` and no path separator, while an already-clean name with single
periods is unchanged. -/
theorem C8_sanitizeFilename_spec :
    (∀ c, isFilenameSafeChar c = true → replaceUnsafeChar c = c) ∧
    (∀ c, isFilenameSafeChar c = false → replaceUnsafeChar c = '_') ∧
    (∀ s : String, (sanitizeFilename s).length ≤ 255) ∧
    (∀ s : String, ∀ c ∈ (sanitizeFilename s).data,
      isFilenameSafeChar c = true ∨ c = '_') ∧
    (∀ s : String, hasDotDot (sanitizeFilename s).data = false) ∧
    sanitizeFilename "../../etc/passwd" = "._._etc_passwd" ∧
    hasDotDot (sanitizeFilename "../../etc/passwd").data = false ∧
    '/' ∉ (sanitizeFilename "../../etc/passwd").data ∧
    '\\' ∉ (sanitizeFilename "../../etc/passwd").data ∧
    sanitizeFilename "report.v1.pdf" = "report.v1.pdf" := by
  refine ⟨fun c h => ?_, fun c h => ?_, fun s => ?_, fun s c hc => ?_, fun s => ?_,
    by decide, by decide, by decide, by decide, by decide⟩
  · simp [replaceUnsafeChar, h]
  · simp [replaceUnsafeChar, h]
  · simp only [sanitizeFilename, String.length]
    simp [List.length_take]
  · have hc2 : c ∈ collapseDotsAux false (s.data.map replaceUnsafeChar) :=
      (List.take_sublist 255 _).mem hc
    have hc3 := mem_collapseDotsAux false _ c hc2
    rcases List.mem_map.1 hc3 with ⟨d, _, rfl⟩
    by_cases hd : isFilenameSafeChar d
    · left
      simp [replaceUnsafeChar, hd]
    · right
      simp [replaceUnsafeChar, hd]
  · exact hasDotDot_take _ 255 (hasDotDot_collapseDotsAux false _)

theorem C8_sanitizeFilename_spec_witness :
    replaceUnsafeChar 'a' = 'a' ∧ replaceUnsafeChar '/' = '_' ∧
    (sanitizeFilename "../../etc/passwd").length ≤ 255 :=
  ⟨C8_sanitizeFilename_spec.1 'a' (by decide), C8_sanitizeFilename_spec.2.1 '/' (by decide),
   C8_sanitizeFilename_spec.2.2.1 "../../etc/passwd"⟩

/-! ## Password strength validation (`validatePasswordStrength`) -/

/-- Membership in the regex class `[a-z]`. -/
def isLowerAlpha (c : Char) : Bool := decide (97 ≤ c.toNat ∧ c.toNat ≤ 122)

/-- Membership in the regex class `[A-Z]`. -/
def isUpperAlpha (c : Char) : Bool := decide (65 ≤ c.toNat ∧ c.toNat ≤ 90)

/-- Membership in the regex class `\d`. -/
def isDigitChar (c : Char) : Bool := decide (48 ≤ c.toNat ∧ c.toNat ≤ 57)

/-- Membership in the special-character set `[@$!%*?&]` of the password
regex. -/
def isPasswordSpecial (c : Char) : Bool :=
  decide (c = '@' ∨ c = '$' ∨ c = '!' ∨ c = '%' ∨ c = '*' ∨ c = '?' ∨ c = '&')

/-- Membership in the regex body class `[A-Za-z\d@$!%*?&]`. -/
def isPasswordAllowed (c : Char) : Bool :=
  isLowerAlpha c || isUpperAlpha c || isDigitChar c || isPasswordSpecial c

/-- Semantics of the anchored password regex of
`SecurityConfig.validatePasswordStrength`: the four lookaheads each require a
character of their class somewhere in the string, and the anchored body
requires the whole string to be at least 8 characters drawn from the class
`[A-Za-z\d@$!%*?&]`. -/
def validatePasswordStrength (s : String) : Bool :=
  decide (8 ≤ s.length) && s.data.any isLowerAlpha && s.data.any isUpperAlpha &&
    s.data.any isDigitChar && s.data.any isPasswordSpecial && s.data.all isPasswordAllowed

/-- C9, counterexample: `"Abcdef1!#"` has 9 characters with a lowercase
letter, an uppercase letter, a digit and a special character from the set,
yet `validatePasswordStrength` rejects it (the `'#'` falls outside the
regex's body class), refuting the claimed if-and-only-if characterization. -/
theorem C9_claim_counterexample :
    validatePasswordStrength "Abcdef1!#" = false ∧
    8 ≤ ("Abcdef1!#" : String).length ∧
    ("Abcdef1!#" : String).data.any isLowerAlpha = true ∧
    ("Abcdef1!#" : String).data.any isUpperAlpha = true ∧
    ("Abcdef1!#" : String).data.any isDigitChar = true ∧
    ("Abcdef1!#" : String).data.any isPasswordSpecial = true := by
  decide

/-- C9 (amended): `validatePasswordStrength` accepts exactly the strings of
at least 8 characters that contain a lowercase letter, an uppercase letter, a
digit and a special character from `@$!%*?&`, and in addition consist solely
of characters from `[A-Za-z0-9@$!%*?&]`; it accepts `"Abcdef1!"` and rejects
`"abcdefgh"` and `"ABC123!"`. -/
theorem C9_validatePasswordStrength_amended :
    (∀ s : String, validatePasswordStrength s = true ↔
      (8 ≤ s.length ∧ (∃ c ∈ s.data, isLowerAlpha c = true) ∧
       (∃ c ∈ s.data, isUpperAlpha c = true) ∧
       (∃ c ∈ s.data, isDigitChar c = true) ∧
       (∃ c ∈ s.data, isPasswordSpecial c = true) ∧
       ∀ c ∈ s.data, isPasswordAllowed c = true)) ∧
    validatePasswordStrength "Abcdef1!" = true ∧
    validatePasswordStrength "abcdefgh" = false ∧
    validatePasswordStrength "ABC123!" = false := by
  refine ⟨fun s => ?_, by decide, by decide, by decide⟩
  rw [validatePasswordStrength]
  simp [List.any_eq_true, List.all_eq_true, Bool.and_eq_true, decide_eq_true_iff, and_assoc]

theorem C9_validatePasswordStrength_amended_witness :
    validatePasswordStrength "Abcdef1!" = true :=
  C9_validatePasswordStrength_amended.2.1

end MyPatients
